import Mathlib

/-!
Verification of the planner server (server.js v1.15) and client (app.js v1.15).

The JavaScript source is shallowly embedded: JS timestamps are strings
together with a parse function `String → Option Int` standing for
`Date.parse` (`none` = `NaN`, values in milliseconds); `Math.round(d/60000)`
on integer millisecond differences is `round60000`; `Array.prototype.sort`
with a key comparator is a sorted, comparator-respecting permutation
(`sortLe`); fallible normalisation returns `Option`.
-/

set_option maxRecDepth 4000

namespace Planner

/-- Model of `Math.round((b - a) / 60000)` on integer milliseconds:
round-half-up (toward plus infinity), i.e. `⌊(2d + 60000) / 120000⌋`. -/
def round60000 (d : Int) : Int := Int.fdiv (2 * d + 60000) 120000

/-- JS truthiness of a possibly-absent string: `undefined`, `null` and `""`
are falsy; any other string is truthy. -/
def getTruthy : Option String → Option String
  | some s => if s = "" then none else some s
  | none => none

/-- Model of the JS expression `a || b` where `a` is a possibly-absent string
and `b` a string default. -/
def strOr (a : Option String) (b : String) : String :=
  match a with
  | some s => if s = "" then b else s
  | none => b

/-- Model of `a || b` on two possibly-absent strings (used for
`d.expectedTime || d.plannedTime`). -/
def strOrOpt (a b : Option String) : Option String :=
  match getTruthy a with
  | some s => some s
  | none => b

/- =========================
   Raw upstream trip records (NS `/trips` response shapes used by the code)
   ========================= -/

/-- Raw stop record inside an upstream leg: the fields `tripToOption` reads
from `l.origin` / `l.destination`. -/
structure StopRaw where
  name : Option String
  plannedDateTime : Option String
  plannedTrack : Option String
  delayInMinutes : Option Int
deriving DecidableEq

/-- Raw product record inside an upstream leg. -/
structure ProductRaw where
  longCategoryName : Option String
  shortCategoryName : Option String
deriving DecidableEq

/-- Raw upstream leg; each of `origin`, `destination`, `product` may be
absent (the code reads them with optional chaining). -/
structure RawLeg where
  origin : Option StopRaw
  destination : Option StopRaw
  product : Option ProductRaw
deriving DecidableEq

/-- Raw upstream trip: an ordered list of legs. -/
structure Trip where
  legs : List RawLeg
deriving DecidableEq

/- =========================
   Normalised options (output of tripToOption / combineOptions)
   ========================= -/

/-- Discovery mode of an option: `"trip"` (direct) or `"combo"`. -/
inductive Mode where
  | trip
  | combo
deriving DecidableEq

/-- Normalised leg, exactly the object built in `tripToOption`'s
`legs.map(...)`. -/
structure Leg where
  originName : Option String
  destName : Option String
  dep : Option String
  arr : Option String
  depTrack : Option String
  arrTrack : Option String
  delayMin : Int
  product : String
deriving DecidableEq

/-- Normalised option, exactly the object returned by `tripToOption` and
`combineOptions`. -/
structure TOption where
  mode : Mode
  durationMin : Int
  depart : String
  arrive : String
  minTransferMin : Option Int
  legs : List Leg
deriving DecidableEq

/-- Normalisation of one raw leg, mirroring the `legs.map((l) => ...)` body
of `tripToOption`: optional chaining becomes `Option.bind`, `?? 0` becomes
`getD 0`, and `l.product?.longCategoryName || l.product?.shortCategoryName
|| "Trein"` is the nested `strOr`. -/
def legToLeg (l : RawLeg) : Leg :=
  { originName := l.origin.bind StopRaw.name
    destName := l.destination.bind StopRaw.name
    dep := l.origin.bind StopRaw.plannedDateTime
    arr := l.destination.bind StopRaw.plannedDateTime
    depTrack := l.origin.bind StopRaw.plannedTrack
    arrTrack := l.destination.bind StopRaw.plannedTrack
    delayMin := (l.origin.bind StopRaw.delayInMinutes).getD 0
    product := strOr (l.product.bind ProductRaw.longCategoryName)
      (strOr (l.product.bind ProductRaw.shortCategoryName) "Trein") }

/-- Parseable consecutive-leg transfer gaps of a leg list: for each adjacent
pair, `Math.round((Date.parse(next.origin.plannedDateTime) -
Date.parse(prev.destination.plannedDateTime)) / 60000)`, skipping pairs
where either timestamp is absent or unparseable (mirrors the
`if (!isFinite(a) || !isFinite(b)) continue;` in `tripToOption`). -/
def gapsOf (dparse : String → Option Int) (legs : List RawLeg) : List Int :=
  (legs.zip legs.tail).filterMap (fun p =>
    match (p.1.destination.bind StopRaw.plannedDateTime).bind dparse,
          (p.2.origin.bind StopRaw.plannedDateTime).bind dparse with
    | some a, some b => some (round60000 (b - a))
    | _, _ => none)

/-- One step of the running-minimum loop of `tripToOption`:
`if (minTransferMin === null || m < minTransferMin) minTransferMin = m`. -/
def minStep (acc : Option Int) (m : Int) : Option Int :=
  match acc with
  | none => some m
  | some a => if m < a then some m else some a

/-- The running minimum of `tripToOption` over the gap list. -/
def minFold (l : List Int) : Option Int := l.foldl minStep none

/-- Shallow embedding of `tripToOption(trip)` from server.js: returns `none`
when the trip has no legs, when either endpoint timestamp is absent/empty
(JS falsy), or when either endpoint timestamp fails to parse. -/
def tripToOption (dparse : String → Option Int) (t : Trip) : Option TOption :=
  match t.legs with
  | [] => none
  | legs =>
    match getTruthy ((legs.head?.bind RawLeg.origin).bind StopRaw.plannedDateTime),
          getTruthy ((legs.getLast?.bind RawLeg.destination).bind StopRaw.plannedDateTime) with
    | some depart, some arrive =>
      match dparse depart, dparse arrive with
      | some depT, some arrT =>
        some { mode := Mode.trip
               durationMin := round60000 (arrT - depT)
               depart := depart
               arrive := arrive
               minTransferMin := minFold (gapsOf dparse legs)
               legs := legs.map legToLeg }
      | _, _ => none
    | _, _ => none

/-- Shallow embedding of `combineOptions(optA, optB)` from server.js. -/
def combineOptions (dparse : String → Option Int) (optA optB : TOption) : Option TOption :=
  match dparse optA.depart, dparse optB.arrive with
  | some depT, some arrT =>
    match dparse optA.arrive, dparse optB.depart with
    | some aArr, some bDep =>
      let transferMin := round60000 (bDep - aArr)
      if transferMin < 0 then none
      else
        let m0 := optA.minTransferMin.getD transferMin
        let m1 := min m0 transferMin
        let m2 := match optB.minTransferMin with
                  | some mb => min m1 mb
                  | none => m1
        some { mode := Mode.combo
               durationMin := round60000 (arrT - depT)
               depart := optA.depart
               arrive := optB.arrive
               minTransferMin := some m2
               legs := optA.legs ++ optB.legs }
    | _, _ => none
  | _, _ => none

/-- Model of `Array.prototype.join(sep)`. -/
def joinSep (sep : String) : List String → String
  | [] => ""
  | [x] => x
  | x :: y :: xs => x ++ sep ++ joinSep sep (y :: xs)

/-- Per-leg part of `optionSignature`. -/
def legSig (l : Leg) : String :=
  (l.originName.getD "") ++ ">" ++ (l.destName.getD "") ++ "@" ++
    (l.dep.getD "") ++ "-" ++ (l.arr.getD "")

/-- Shallow embedding of `optionSignature(o)` from server.js. -/
def optionSignature (o : TOption) : String :=
  o.depart ++ "|" ++ o.arrive ++ "|" ++ toString o.durationMin ++ "|" ++
    joinSep "~" (o.legs.map legSig)

/-- Shallow embedding of `scoreOption(o)` from the `/reis-extreme-b`
handler: `const minT = o.minTransferMin ?? 999; const penalty = minT > 10 ?
(minT - 10) * 2 : 0; return o.durationMin + penalty;`. -/
def scoreOption (o : TOption) : Int :=
  let minT := o.minTransferMin.getD 999
  let penalty := if 10 < minT then (minT - 10) * 2 else 0
  o.durationMin + penalty

/- =========================
   Comparator sort (model of Array.prototype.sort with a key comparator):
   Array.prototype.sort with comparator (a, b) => k(a) - k(b) produces a
   permutation of the array sorted by k; it is modelled by insertion sort
   on the relation k a ≤ k b.
   ========================= -/

/-- Sort by score ascending, modelling `.sort((a, b) => scoreOption(a) -
scoreOption(b))`. -/
def sortByScore (l : List TOption) : List TOption :=
  List.insertionSort (fun a b => scoreOption a ≤ scoreOption b) l

/- =========================
   /reis-extreme-b pipeline (server.js)
   ========================= -/

/-- Tunable `TARGET` of the combination search. -/
def TARGET : Nat := 10

/-- Tunable `MAX_VIA`. -/
def MAX_VIA : Nat := 8

/-- Tunable `TOP_A`. -/
def TOP_A : Nat := 5

/-- Tunable `TOP_B`. -/
def TOP_B : Nat := 8

/-- Tunable `MAX_TRANSFER` (minutes). -/
def MAX_TRANSFER : Int := 20

/-- Normalise a list of raw trips, dropping rejects:
`trips.map(tripToOption).filter(Boolean)`. -/
def baseOptionsOf (dparse : String → Option Int) (trips : List Trip) : List TOption :=
  trips.filterMap (tripToOption dparse)

/-- One step of the via-frequency count: the JS `Map` keeps first-insertion
order, so the model is an association list that bumps an existing key or
appends a new one. -/
def bumpName (m : List (String × Nat)) (nm : String) : List (String × Nat) :=
  if m.any (fun p => p.1 = nm) then
    m.map (fun p => if p.1 = nm then (p.1, p.2 + 1) else p)
  else m ++ [(nm, 1)]

/-- Via-frequency count over all base trips: every leg boundary
`legs[i]?.destination?.name` for `i < legs.length - 1`, skipping falsy
names. -/
def viaCounts (trips : List Trip) : List (String × Nat) :=
  trips.foldl (fun m t =>
    (t.legs.dropLast.filterMap (fun l => getTruthy (l.destination.bind StopRaw.name))).foldl
      bumpName m) []

/-- Candidate via-station names: sort descending by count
(`.sort((a, b) => b[1] - a[1])`), slice `MAX_VIA`, keep the names. -/
def viaNamesOf (trips : List Trip) : List String :=
  ((List.insertionSort (fun a b => b.2 ≤ a.2) (viaCounts trips)).take MAX_VIA).map Prod.fst

/-- Top `TOP_A` A-options: normalised trips sorted ascending by
`durationMin` and sliced to 5. -/
def topA (dparse : String → Option Int) (trips : List Trip) : List TOption :=
  ((List.insertionSort (fun x y => x.durationMin ≤ y.durationMin)
    (baseOptionsOf dparse trips)).take TOP_A)

/-- Top `TOP_B` B-options: normalised trips sliced to the first 8 (the code
does not sort them). -/
def topB (dparse : String → Option Int) (trips : List Trip) : List TOption :=
  (baseOptionsOf dparse trips).take TOP_B

/-- Processing of one (A, B) pair inside the B-loop of `/reis-extreme-b`:
compute `transferMin = Math.round((Date.parse(optB.depart) -
Date.parse(optA.arrive)) / 60000)`; skip the pair when it is non-finite,
negative or above `MAX_TRANSFER`; otherwise call `combineOptions`. -/
def pairCombine (dparse : String → Option Int) (optA optB : TOption) : Option TOption :=
  match dparse optB.depart, dparse optA.arrive with
  | some bDep, some aArr =>
    let transferMin := round60000 (bDep - aArr)
    if transferMin < 0 ∨ MAX_TRANSFER < transferMin then none
    else combineOptions dparse optA optB
  | _, _ => none

/-- The bounded best-results buffer: `best.push(o); if (best.length > 80)
{ best.sort(byScore); best.length = 55; }`. -/
def pushBest (best : List TOption) (o : TOption) : List TOption :=
  let b := best ++ [o]
  if 80 < b.length then (sortByScore b).take 55 else b

/-- The inner `for (const optB of bOpts)` loop over one A-option. -/
def procB (dparse : String → Option Int) (optA : TOption) (bOpts : List TOption)
    (best : List TOption) : List TOption :=
  bOpts.foldl (fun acc optB =>
    match pairCombine dparse optA optB with
    | some c => pushBest acc c
    | none => acc) best

/-- Observable events of the via exploration: an `outOfTime()` budget check
(with its sequence number and reading) or the issuing of an upstream trip
fetch (A leg or B leg). -/
inductive Ev where
  | check (n : Nat) (r : Bool)
  | fetchA (via : String)
  | fetchB (via : String) (arr : String)
deriving DecidableEq

/-- Result of an (instrumented) exploration loop: collected combinations,
final budget-check counter, and the event trace. -/
structure LoopRes where
  best : List TOption
  ctr : Nat
  trace : List Ev
deriving DecidableEq

/-- The `for (const optA of aOpts)` loop of one via-branch, instrumented
with budget checks and fetch events. Mirrors server.js: check before each
A-option (`break`), check again inside the `limitTrips` closure (`return`,
which skips only this A-option), then fetch the B trips and process every
(A, B) pair. `oot n` is the reading of the n-th `outOfTime()` call. -/
def aLoop (dparse : String → Option Int) (oot : Nat → Bool)
    (fetchB : String → String → List Trip) (via : String) :
    List TOption → List TOption → Nat → LoopRes
  | [], best, ctr => ⟨best, ctr, []⟩
  | optA :: rest, best, ctr =>
    if oot ctr then ⟨best, ctr + 1, [Ev.check ctr true]⟩
    else if oot (ctr + 1) then
      let r := aLoop dparse oot fetchB via rest best (ctr + 2)
      ⟨r.best, r.ctr, Ev.check ctr false :: Ev.check (ctr + 1) true :: r.trace⟩
    else
      let bOpts := topB dparse (fetchB via optA.arrive)
      let best2 := procB dparse optA bOpts best
      let r := aLoop dparse oot fetchB via rest best2 (ctr + 2)
      ⟨r.best, r.ctr,
        Ev.check ctr false :: Ev.check (ctr + 1) false :: Ev.fetchB via optA.arrive :: r.trace⟩

/-- The `for (const via of viaCodes)` loop of `/reis-extreme-b`,
instrumented like `aLoop`: check before each via-branch (`break`), check
inside the `limitTrips` closure (`return`, skipping only this via), fetch
the A trips, run the A-loop, continue with the next via. -/
def viaLoop (dparse : String → Option Int) (oot : Nat → Bool)
    (fetchA : String → List Trip) (fetchB : String → String → List Trip) :
    List String → List TOption → Nat → LoopRes
  | [], best, ctr => ⟨best, ctr, []⟩
  | via :: rest, best, ctr =>
    if oot ctr then ⟨best, ctr + 1, [Ev.check ctr true]⟩
    else if oot (ctr + 1) then
      let r := viaLoop dparse oot fetchA fetchB rest best (ctr + 2)
      ⟨r.best, r.ctr, Ev.check ctr false :: Ev.check (ctr + 1) true :: r.trace⟩
    else
      let aOpts := topA dparse (fetchA via)
      let ar := aLoop dparse oot fetchB via aOpts best (ctr + 2)
      let r := viaLoop dparse oot fetchA fetchB rest ar.best ar.ctr
      ⟨r.best, r.ctr,
        Ev.check ctr false :: Ev.check (ctr + 1) false :: Ev.fetchA via :: (ar.trace ++ r.trace)⟩

/-- The merge-and-dedupe loop of `/reis-extreme-b`: keep the first option
for each signature (`seen` set). -/
def dedupAux : List String → List TOption → List TOption
  | _, [] => []
  | seen, o :: rest =>
    let k := optionSignature o
    if k ∈ seen then dedupAux seen rest
    else o :: dedupAux (k :: seen) rest

/-- Deduplicate a merged option list by `optionSignature`. -/
def dedupBySig (l : List TOption) : List TOption := dedupAux [] l

/-- Resolved via codes: each name resolved through the station resolver
(abstracted as `resolveC`), with `hit?.code || null` and `.filter(Boolean)`
dropping unresolved or falsy codes. -/
def viaCodesOf (resolveC : String → Option String) (trips : List Trip) : List String :=
  (viaNamesOf trips).filterMap (fun nm => getTruthy (resolveC nm))

/-- Shallow embedding of the `/reis-extreme-b` response computation, as a
function of the upstream responses: `baseTrips` is the base query result,
`fetchA via` / `fetchB via arr` the via-exploration results, `resolveC` the
station resolution, `oot n` the n-th `outOfTime()` reading (check 0 is the
one taken after the via names are derived; the via loop numbers its checks
from 1). The three return paths mirror the code: early return when the base
yields at least `TARGET` options (sort + slice, no dedup); budget bail-out
(plain slice, no sort, no dedup); merge + dedupe + sort + slice. -/
def extremeBResponse (dparse : String → Option Int) (oot : Nat → Bool)
    (resolveC : String → Option String) (fetchA : String → List Trip)
    (fetchB : String → String → List Trip) (baseTrips : List Trip) : List TOption :=
  let options := baseOptionsOf dparse baseTrips
  if TARGET ≤ options.length then (sortByScore options).take TARGET
  else if oot 0 then options.take TARGET
  else
    let res := viaLoop dparse oot fetchA fetchB (viaCodesOf resolveC baseTrips) [] 1
    (sortByScore (dedupBySig (options ++ res.best))).take TARGET

/- =========================
   Departure window selection (renderOvPanel, app.js v1.15)
   ========================= -/

/-- Raw departure record as consumed by `renderOvPanel` (fields relevant to
row selection). -/
structure DepRec where
  expectedTime : Option String
  plannedTime : Option String
  line : Option String
  destination : Option String
  transportType : Option String
deriving DecidableEq

/-- A selected departure row: the record, its display timestamp and its
transfer gap in minutes. -/
structure OvRow where
  drec : DepRec
  depIso : String
  transferMin : Int
deriving DecidableEq

/-- Candidate rows of `renderOvPanel`: the first 80 departures, each with
`depIso = d.expectedTime || d.plannedTime` and `transferMin =
Math.round((safeParseTime(depIso) - safeParseTime(trainArrIso)) / 60000)`,
dropping rows with unparseable times and rows with negative transfer.
`sparse` stands for `safeParseTime` (which includes the timezone-suffix
normalisation). -/
def ovItems (sparse : String → Option Int) (deps : List DepRec) (trainArrIso : String) :
    List OvRow :=
  match sparse trainArrIso with
  | none => []
  | some arrT =>
    (deps.take 80).filterMap (fun d =>
      match strOrOpt d.expectedTime d.plannedTime with
      | none => none
      | some iso =>
        match sparse iso with
        | none => none
        | some depT =>
          let transferMin := round60000 (depT - arrT)
          if transferMin < 0 then none
          else some ⟨d, iso, transferMin⟩)

/-- Primary window of `renderOvPanel`: rows with `transferMin ≤ 30`
(non-negative by `ovItems`). -/
def ovWithin (sparse : String → Option Int) (deps : List DepRec) (trainArrIso : String) :
    List OvRow :=
  (ovItems sparse deps trainArrIso).filter (fun i => decide (i.transferMin ≤ 30))

/-- Fallback pool of `renderOvPanel`: rows with `30 < transferMin ≤ 120`. -/
def ovAfter (sparse : String → Option Int) (deps : List DepRec) (trainArrIso : String) :
    List OvRow :=
  (ovItems sparse deps trainArrIso).filter
    (fun i => decide (30 < i.transferMin) && decide (i.transferMin ≤ 120))

/-- The rows `renderOvPanel` actually renders: the primary window capped at
25 rows, plus — only when the primary window is empty — the first 8 rows of
the 30–120 minute fallback pool. -/
def ovShown (sparse : String → Option Int) (deps : List DepRec) (trainArrIso : String) :
    List OvRow :=
  let within := ovWithin sparse deps trainArrIso
  within.take 25 ++
    (if within.isEmpty then (ovAfter sparse deps trainArrIso).take 8 else [])

/- =========================
   Station resolver (fetchStationsCached, server.js)
   ========================= -/

/-- Model of `String.prototype.toLowerCase` (character-wise lowering). -/
def jsToLower (s : String) : String := String.mk (s.data.map Char.toLower)

/-- Model of `String.prototype.trim`: strip whitespace at both ends. -/
def jsTrim (s : String) : String :=
  String.mk (((s.data.dropWhile Char.isWhitespace).reverse.dropWhile Char.isWhitespace).reverse)

/-- Synchronous decision taken by `fetchStationsCached(q)` before any
`await`: short-circuit on an empty key, serve a fresh cache hit, join an
in-flight resolution, or start a new upstream call. -/
inductive ResolveStep where
  | empty
  | hitCached
  | joined
  | upstreamCall
deriving DecidableEq

/-- The decision function of `fetchStationsCached`: `key = (q || "")
.trim().toLowerCase(); if (!key) return []; if (cache hit) return it;
if (in flight) join; else issue the upstream call`. `cache` is the fresh
(non-expired) cache view; `infl` the in-flight map membership. -/
def resolveDecision {P : Type} (cache : String → Option P) (infl : String → Bool)
    (q : String) : ResolveStep :=
  let key := jsToLower (jsTrim q)
  if key = "" then ResolveStep.empty
  else
    match cache key with
    | some _ => ResolveStep.hitCached
    | none => if infl key then ResolveStep.joined else ResolveStep.upstreamCall

/-- Settlement outcome of the single upstream station call. -/
inductive Outcome (P : Type) where
  | ok (p : P)
  | err
deriving DecidableEq

/-- Coalescing-machine state for one cache key: fresh cache entry, in-flight
marker, number of upstream calls issued, callers awaiting the pending
promise, delivered results, and the number of times the in-flight marker
was removed. -/
structure CoState (P : Type) where
  cache : Option P
  inflight : Bool
  upstream : Nat
  waiters : List Nat
  delivered : List (Nat × Outcome P)
  deletes : Nat
deriving DecidableEq

/-- Events at one key of the station resolver: a caller invokes
`fetchStationsCached` (atomic up to its first `await` in single-threaded
JS), or the pending upstream call settles. -/
inductive CoEv (P : Type) where
  | arrive (c : Nat)
  | settle (o : Outcome P)
deriving DecidableEq

/-- One atomic step of the coalescing machine. An arriving caller gets the
cached value, or joins the pending promise, or — when the key is neither
cached nor in flight — issues the one upstream call and sets the marker.
Settlement runs the `finally`: it removes the marker (counted in
`deletes`), caches the payload on success, and wakes every waiter with the
outcome. -/
def coStep {P : Type} (s : CoState P) : CoEv P → CoState P
  | CoEv.arrive c =>
    match s.cache with
    | some v => { s with delivered := s.delivered ++ [(c, Outcome.ok v)] }
    | none =>
      if s.inflight then { s with waiters := s.waiters ++ [c] }
      else { s with inflight := true, upstream := s.upstream + 1, waiters := s.waiters ++ [c] }
  | CoEv.settle o =>
    if s.inflight then
      { s with inflight := false
               deletes := s.deletes + 1
               cache := match o with
                        | Outcome.ok p => some p
                        | Outcome.err => s.cache
               delivered := s.delivered ++ s.waiters.map (fun c => (c, o))
               waiters := [] }
    else s

/-- Run the coalescing machine over an event list. -/
def coRun {P : Type} (s : CoState P) (evs : List (CoEv P)) : CoState P :=
  evs.foldl coStep s

/-- Initial machine state for an un-cached key. -/
def coInit {P : Type} : CoState P := ⟨none, false, 0, [], [], 0⟩

/- =========================
   Concrete instances (witness inputs)
   ========================= -/

/-- Concrete timestamp parse table used in witnesses and counterexamples:
a finite `Date.parse` assignment (milliseconds). -/
def cparse : String → Option Int := fun s =>
  if s = "T0" then some 0
  else if s = "T6" then some 60000
  else if s = "T6M" then some 6000000
  else if s = "TB" then some 360000
  else if s = "TB6" then some 420000
  else if s = "TNEG" then some (-240000)
  else if s = "T12" then some 720000
  else if s = "M45" then some 2700000
  else if s = "M90" then some 5400000
  else none

/-- One-leg trip X→Y departing at `T0`, arriving at `T6` (1 minute). -/
def tripXY : Trip :=
  ⟨[⟨some ⟨some "X", some "T0", none, none⟩, some ⟨some "Y", some "T6", none, none⟩, none⟩]⟩

/-- Expected normalisation of `tripXY`. -/
def optXY : TOption :=
  ⟨Mode.trip, 1, "T0", "T6", none,
    [⟨some "X", some "Y", some "T0", some "T6", none, none, 0, "Trein"⟩]⟩

/-- One-leg trip Y→Z departing at `TB` (5 minutes after `T6`), arriving at
`TB6`. -/
def tripYZ : Trip :=
  ⟨[⟨some ⟨some "Y", some "TB", none, none⟩, some ⟨some "Z", some "TB6", none, none⟩, none⟩]⟩

/-- Expected normalisation of `tripYZ`. -/
def optYZ : TOption :=
  ⟨Mode.trip, 1, "TB", "TB6", none,
    [⟨some "Y", some "Z", some "TB", some "TB6", none, none, 0, "Trein"⟩]⟩

/-- One-leg trip whose arrival timestamp parses 6 000 000 ms before its
departure timestamp. -/
def tripNegDur : Trip :=
  ⟨[⟨some ⟨some "X", some "T6M", none, none⟩, some ⟨some "Y", some "T0", none, none⟩, none⟩]⟩

/-- Two-leg trip whose second leg departs 5 minutes before the first leg
arrives (transfer gap −5). -/
def tripNegGap : Trip :=
  ⟨[⟨some ⟨some "X", some "T0", none, none⟩, some ⟨some "Y", some "T6", none, none⟩, none⟩,
    ⟨some ⟨some "Y", some "TNEG", none, none⟩, some ⟨some "Z", some "T12", none, none⟩, none⟩]⟩

/-- Departure board with rows at +45 and +90 minutes after `T0`. -/
def deps45and90 : List DepRec :=
  [⟨some "M45", none, none, none, none⟩, ⟨some "M90", none, none, none, none⟩]

/- =========================
   Structural lemmas
   ========================= -/

theorem round60000_nonneg {d : Int} (h : 0 ≤ d) : 0 ≤ round60000 d := by
  unfold round60000
  exact Int.fdiv_nonneg (by linarith) (by norm_num)

theorem tripToOption_spec {dparse : String → Option Int} {t : Trip} {o : TOption}
    (h : tripToOption dparse t = some o) :
    ∃ dT aT, dparse o.depart = some dT ∧ dparse o.arrive = some aT ∧
      o.durationMin = round60000 (aT - dT) ∧
      o.minTransferMin = minFold (gapsOf dparse t.legs) ∧
      o.legs = t.legs.map legToLeg ∧ o.mode = Mode.trip := by
  unfold tripToOption at h
  split at h
  · exact absurd h (by simp)
  · split at h
    · split at h
      · rename_i depT arrT hdep harr
        rw [Option.some_inj] at h
        subst h
        exact ⟨depT, arrT, hdep, harr, rfl, rfl, rfl, rfl⟩
      · exact absurd h (by simp)
    · exact absurd h (by simp)

theorem combineOptions_spec {dparse : String → Option Int} {a b : TOption} {o : TOption}
    (h : combineOptions dparse a b = some o) :
    ∃ dT aT, dparse o.depart = some dT ∧ dparse o.arrive = some aT ∧
      o.durationMin = round60000 (aT - dT) ∧
      o.depart = a.depart ∧ o.arrive = b.arrive ∧
      o.legs = a.legs ++ b.legs ∧ o.mode = Mode.combo := by
  unfold combineOptions at h
  split at h
  · rename_i depT arrT hdep harr
    split at h
    · split at h
      all_goals simp only [] at h
      all_goals split at h
      all_goals
        first
          | (rw [Option.some_inj] at h
             subst h
             exact ⟨depT, arrT, hdep, harr, rfl, rfl, rfl, rfl, rfl⟩)
          | exact absurd h (by simp)
    · exact absurd h (by simp)
  · exact absurd h (by simp)

theorem minFold_go (l : List Int) : ∀ (a m : Int),
    l.foldl minStep (some a) = some m →
    (m = a ∨ m ∈ l) ∧ m ≤ a ∧ ∀ g ∈ l, m ≤ g := by
  induction l with
  | nil =>
    intro a m h
    simp only [List.foldl_nil, Option.some_inj] at h
    subst h
    exact ⟨Or.inl rfl, le_refl _, by simp⟩
  | cons x xs ih =>
    intro a m h
    rw [List.foldl_cons] at h
    by_cases hx : x < a
    · rw [show minStep (some a) x = some x from by simp [minStep, hx]] at h
      obtain ⟨h1, h2, h3⟩ := ih x m h
      refine ⟨?_, le_trans h2 (le_of_lt hx), ?_⟩
      · rcases h1 with rfl | hm
        · exact Or.inr (List.mem_cons_self _ _)
        · exact Or.inr (List.mem_cons_of_mem _ hm)
      · intro g hg
        rcases List.mem_cons.mp hg with rfl | hg
        · exact h2
        · exact h3 g hg
    · rw [show minStep (some a) x = some a from by simp [minStep, hx]] at h
      obtain ⟨h1, h2, h3⟩ := ih a m h
      refine ⟨?_, h2, ?_⟩
      · rcases h1 with rfl | hm
        · exact Or.inl rfl
        · exact Or.inr (List.mem_cons_of_mem _ hm)
      · intro g hg
        rcases List.mem_cons.mp hg with rfl | hg
        · exact le_trans h2 (not_lt.mp hx)
        · exact h3 g hg

theorem minFold_spec {l : List Int} {m : Int} (h : minFold l = some m) :
    m ∈ l ∧ ∀ g ∈ l, m ≤ g := by
  cases l with
  | nil => exact absurd h (by simp [minFold])
  | cons x xs =>
    unfold minFold at h
    rw [List.foldl_cons, show minStep none x = some x from rfl] at h
    obtain ⟨h1, h2, h3⟩ := minFold_go xs x m h
    constructor
    · rcases h1 with rfl | hm
      · exact List.mem_cons_self _ _
      · exact List.mem_cons_of_mem _ hm
    · intro g hg
      rcases List.mem_cons.mp hg with rfl | hg
      · exact h2
      · exact h3 g hg

theorem gapsOf_short {dparse : String → Option Int} {legs : List RawLeg}
    (h : legs.length < 2) : gapsOf dparse legs = [] := by
  match legs with
  | [] => rfl
  | [x] => rfl
  | x :: y :: rest => simp only [List.length_cons] at h; omega

theorem dedupAux_sig_nodup (l : List TOption) : ∀ (seen : List String),
    ((dedupAux seen l).map optionSignature).Nodup ∧
    ∀ s ∈ (dedupAux seen l).map optionSignature, s ∉ seen := by
  induction l with
  | nil => intro seen; simp [dedupAux]
  | cons o rest ih =>
    intro seen
    have heq : dedupAux seen (o :: rest) =
        if optionSignature o ∈ seen then dedupAux seen rest
        else o :: dedupAux (optionSignature o :: seen) rest := rfl
    rw [heq]
    by_cases hk : optionSignature o ∈ seen
    · rw [if_pos hk]; exact ih seen
    · rw [if_neg hk]
      obtain ⟨hn, hs⟩ := ih (optionSignature o :: seen)
      constructor
      · simp only [List.map_cons, List.nodup_cons]
        exact ⟨fun hmem => (hs _ hmem) (List.mem_cons_self _ _), hn⟩
      · intro s hsmem
        simp only [List.map_cons, List.mem_cons] at hsmem
        rcases hsmem with rfl | hsm
        · exact hk
        · exact fun hseen => (hs s hsm) (List.mem_cons_of_mem _ hseen)

theorem combineOptions_isSome {dparse : String → Option Int} {a b : TOption}
    {dT aT aA bD : Int}
    (h1 : dparse a.depart = some dT) (h2 : dparse b.arrive = some aT)
    (h3 : dparse a.arrive = some aA) (h4 : dparse b.depart = some bD)
    (h5 : ¬ round60000 (bD - aA) < 0) :
    (combineOptions dparse a b).isSome = true := by
  cases hmb : b.minTransferMin with
  | none =>
    unfold combineOptions
    rw [h1, h2, h3, h4, hmb]
    dsimp only
    rw [if_neg h5]
    rfl
  | some mb =>
    unfold combineOptions
    rw [h1, h2, h3, h4, hmb]
    dsimp only
    rw [if_neg h5]
    rfl

/-- C3: for every (A, B) pair considered in the via-station exploration
(both options produced by `tripToOption`), the pair is rejected — no
Combination option is produced — exactly when the transfer gap
`round((B.depart − A.arrive)/60000)` is negative or greater than
`MAX_TRANSFER` (the gap of normalised options is always finite, so the
non-finite case of the guard is vacuous); otherwise a Combination option
is produced whose legs are A's legs followed by B's legs. -/
theorem viaPair_transfer_gate {dparse : String → Option Int} {tA tB : Trip} {optA optB : TOption}
    (hA : tripToOption dparse tA = some optA) (hB : tripToOption dparse tB = some optB) :
    ∃ aA bD, dparse optA.arrive = some aA ∧ dparse optB.depart = some bD ∧
      (pairCombine dparse optA optB = none ↔
        (round60000 (bD - aA) < 0 ∨ MAX_TRANSFER < round60000 (bD - aA))) ∧
      ∀ c, pairCombine dparse optA optB = some c →
        c.legs = optA.legs ++ optB.legs ∧ c.mode = Mode.combo := by
  obtain ⟨dTa, aTa, hdepA, harrA, _, _, _, _⟩ := tripToOption_spec hA
  obtain ⟨dTb, aTb, hdepB, harrB, _, _, _, _⟩ := tripToOption_spec hB
  refine ⟨aTa, dTb, harrA, hdepB, ?_, ?_⟩
  · constructor
    · intro hnone
      by_contra hcon
      push_neg at hcon
      obtain ⟨hge, hle⟩ := hcon
      unfold pairCombine at hnone
      rw [hdepB, harrA] at hnone
      dsimp only at hnone
      rw [if_neg (by push_neg; exact ⟨hge, hle⟩ : ¬ _)] at hnone
      obtain ⟨c, hc⟩ :=
        Option.isSome_iff_exists.mp (combineOptions_isSome hdepA harrB harrA hdepB
          (not_lt.mpr hge))
      rw [hc] at hnone
      exact absurd hnone (by simp)
    · intro hrange
      unfold pairCombine
      rw [hdepB, harrA]
      dsimp only
      rw [if_pos hrange]
  · intro c hc
    unfold pairCombine at hc
    rw [hdepB, harrA] at hc
    dsimp only at hc
    split at hc
    · exact absurd hc (by simp)
    · obtain ⟨_, _, _, _, _, _, hca, hclegs, hcmode⟩ := combineOptions_spec hc
      exact ⟨hclegs, hcmode⟩

theorem ovItems_nonneg {sparse : String → Option Int} {deps : List DepRec}
    {arr : String} {r : OvRow} (h : r ∈ ovItems sparse deps arr) :
    0 ≤ r.transferMin := by
  unfold ovItems at h
  split at h
  · exact absurd h (by simp)
  · obtain ⟨d, _, hfd⟩ := List.mem_filterMap.mp h
    split at hfd
    · exact absurd hfd (by simp)
    · split at hfd
      · exact absurd hfd (by simp)
      · dsimp only at hfd
        split at hfd
        · exact absurd hfd (by simp)
        · rename_i hneg
          rw [Option.some_inj] at hfd
          subst hfd
          exact not_lt.mp hneg

theorem ovShown_mem_items {sparse : String → Option Int} {deps : List DepRec}
    {arr : String} {r : OvRow} (h : r ∈ ovShown sparse deps arr) :
    r ∈ ovItems sparse deps arr := by
  have heq : ovShown sparse deps arr =
      (ovWithin sparse deps arr).take 25 ++
        (if (ovWithin sparse deps arr).isEmpty then (ovAfter sparse deps arr).take 8
         else []) := rfl
  rw [heq] at h
  rcases List.mem_append.mp h with h1 | h2
  · exact List.mem_of_mem_filter (List.mem_of_mem_take h1)
  · split at h2
    · exact List.mem_of_mem_filter (List.mem_of_mem_take h2)
    · exact absurd h2 (by simp)

/-- C7 (amended): when no departure has a transfer gap in [0, 30] minutes,
`renderOvPanel` falls back to showing the first at most 8 rows with a gap
in (30, 120] minutes — there is no 60-minute window and no `windowUsed`
value, so for offsets {+45, +90} both entries are shown, not only +45. -/
theorem ovSelector_fallback_window {sparse : String → Option Int} {deps : List DepRec}
    {arr : String} (hempty : ovWithin sparse deps arr = []) :
    ovShown sparse deps arr = (ovAfter sparse deps arr).take 8 := by
  have heq : ovShown sparse deps arr =
      (ovWithin sparse deps arr).take 25 ++
        (if (ovWithin sparse deps arr).isEmpty then (ovAfter sparse deps arr).take 8
         else []) := rfl
  rw [heq, hempty]
  simp

theorem coRun_arrive_pending {P : Type} (cs : List Nat) : ∀ (ws : List Nat),
    coRun (P := P) ⟨none, true, 1, ws, [], 0⟩ (cs.map CoEv.arrive) =
      ⟨none, true, 1, ws ++ cs, [], 0⟩ := by
  induction cs with
  | nil => intro ws; simp [coRun]
  | cons c rest ih =>
    intro ws
    simp only [coRun, List.map_cons, List.foldl_cons]
    have hstep : coStep (P := P) ⟨none, true, 1, ws, [], 0⟩ (CoEv.arrive c) =
        ⟨none, true, 1, ws ++ [c], [], 0⟩ := rfl
    rw [hstep]
    have hrec := ih (ws ++ [c])
    simp only [coRun] at hrec
    rw [hrec]
    simp

theorem sortByScore_sorted (l : List TOption) :
    List.Pairwise (fun a b => scoreOption a ≤ scoreOption b) (sortByScore l) :=
  @List.sorted_insertionSort TOption (fun a b => scoreOption a ≤ scoreOption b) _
    ⟨fun _ _ => Int.le_total _ _⟩ ⟨fun _ _ _ h1 h2 => le_trans h1 h2⟩ l

theorem extremeBResponse_early_eq {dparse : String → Option Int} {oot : Nat → Bool}
    {resolveC : String → Option String} {fetchA : String → List Trip}
    {fetchB : String → String → List Trip} {baseTrips : List Trip}
    (h1 : TARGET ≤ (baseOptionsOf dparse baseTrips).length) :
    extremeBResponse dparse oot resolveC fetchA fetchB baseTrips =
      (sortByScore (baseOptionsOf dparse baseTrips)).take TARGET := by
  have heq : extremeBResponse dparse oot resolveC fetchA fetchB baseTrips =
      (if TARGET ≤ (baseOptionsOf dparse baseTrips).length then
        (sortByScore (baseOptionsOf dparse baseTrips)).take TARGET
       else if oot 0 then (baseOptionsOf dparse baseTrips).take TARGET
       else
        (sortByScore (dedupBySig (baseOptionsOf dparse baseTrips ++
          (viaLoop dparse oot fetchA fetchB (viaCodesOf resolveC baseTrips) [] 1).best))).take
          TARGET) := rfl
  rw [heq, if_pos h1]

theorem extremeBResponse_merge_eq {dparse : String → Option Int} {oot : Nat → Bool}
    {resolveC : String → Option String} {fetchA : String → List Trip}
    {fetchB : String → String → List Trip} {baseTrips : List Trip}
    (h1 : (baseOptionsOf dparse baseTrips).length < TARGET) (h2 : oot 0 = false) :
    extremeBResponse dparse oot resolveC fetchA fetchB baseTrips =
      (sortByScore (dedupBySig (baseOptionsOf dparse baseTrips ++
        (viaLoop dparse oot fetchA fetchB (viaCodesOf resolveC baseTrips) [] 1).best))).take
        TARGET := by
  have heq : extremeBResponse dparse oot resolveC fetchA fetchB baseTrips =
      (if TARGET ≤ (baseOptionsOf dparse baseTrips).length then
        (sortByScore (baseOptionsOf dparse baseTrips)).take TARGET
       else if oot 0 then (baseOptionsOf dparse baseTrips).take TARGET
       else
        (sortByScore (dedupBySig (baseOptionsOf dparse baseTrips ++
          (viaLoop dparse oot fetchA fetchB (viaCodesOf resolveC baseTrips) [] 1).best))).take
          TARGET) := rfl
  rw [heq, if_neg (not_le.mpr h1), if_neg (by simp [h2])]

theorem extremeBResponse_budget_eq {dparse : String → Option Int} {oot : Nat → Bool}
    {resolveC : String → Option String} {fetchA : String → List Trip}
    {fetchB : String → String → List Trip} {baseTrips : List Trip}
    (h1 : (baseOptionsOf dparse baseTrips).length < TARGET) (h2 : oot 0 = true) :
    extremeBResponse dparse oot resolveC fetchA fetchB baseTrips =
      (baseOptionsOf dparse baseTrips).take TARGET := by
  have heq : extremeBResponse dparse oot resolveC fetchA fetchB baseTrips =
      (if TARGET ≤ (baseOptionsOf dparse baseTrips).length then
        (sortByScore (baseOptionsOf dparse baseTrips)).take TARGET
       else if oot 0 then (baseOptionsOf dparse baseTrips).take TARGET
       else
        (sortByScore (dedupBySig (baseOptionsOf dparse baseTrips ++
          (viaLoop dparse oot fetchA fetchB (viaCodesOf resolveC baseTrips) [] 1).best))).take
          TARGET) := rfl
  rw [heq, if_neg (not_le.mpr h1), if_pos (by simp [h2])]

theorem nodup_sig_sort_take (l : List TOption) (hn : (l.map optionSignature).Nodup)
    (n : Nat) : (((sortByScore l).take n).map optionSignature).Nodup := by
  have hperm : ((sortByScore l).map optionSignature).Perm (l.map optionSignature) :=
    (List.perm_insertionSort _ l).map optionSignature
  have hns : ((sortByScore l).map optionSignature).Nodup := hperm.nodup_iff.mpr hn
  rw [List.map_take]
  exact (List.take_sublist n _).nodup hns

/- =========================
   Budget-trace predicates and loop lemmas
   ========================= -/

/-- An event is a fetch (upstream trip call). -/
def isFetch : Ev → Bool
  | Ev.check _ _ => false
  | Ev.fetchA _ => true
  | Ev.fetchB _ _ => true

/-- An event is not a fetch. -/
def notFetch (e : Ev) : Bool := !isFetch e

/-- An event is a budget check that read `true` (budget exceeded). -/
def isTrueCheck : Ev → Bool
  | Ev.check _ true => true
  | _ => false

/-- Some check in the trace read `true`. -/
def anyTrueCheck (l : List Ev) : Bool := l.any isTrueCheck

/-- Every fetch event is immediately preceded by a budget check that read
`false`: the previous-event state is `true` exactly after a false check. -/
def guardedFrom : Bool → List Ev → Bool
  | _, [] => true
  | _, (Ev.check _ r) :: rest => guardedFrom (!r) rest
  | p, (Ev.fetchA _) :: rest => p && guardedFrom false rest
  | p, (Ev.fetchB _ _) :: rest => p && guardedFrom false rest

/-- After any check that read `true`, no fetch event ever follows in the
trace. -/
def budgetRespecting : List Ev → Bool
  | [] => true
  | e :: rest => (if isTrueCheck e then rest.all notFetch else true) && budgetRespecting rest

theorem guardedFrom_weaken : ∀ (l : List Ev) (b : Bool),
    guardedFrom false l = true → guardedFrom b l = true
  | [], _, _ => rfl
  | (Ev.check _ _) :: _, _, h => h
  | (Ev.fetchA _) :: _, _, h => absurd h (by simp [guardedFrom])
  | (Ev.fetchB _ _) :: _, _, h => absurd h (by simp [guardedFrom])

theorem guardedFrom_append : ∀ (l1 : List Ev) (b : Bool) (l2 : List Ev),
    guardedFrom b l1 = true → guardedFrom false l2 = true →
    guardedFrom b (l1 ++ l2) = true
  | [], b, l2, _, h2 => guardedFrom_weaken l2 b h2
  | (Ev.check _ r) :: rest, _, l2, h1, h2 =>
    guardedFrom_append rest (!r) l2 h1 h2
  | (Ev.fetchA _) :: rest, b, l2, h1, h2 => by
    simp only [guardedFrom, Bool.and_eq_true] at h1 ⊢
    exact ⟨h1.1, guardedFrom_append rest false l2 h1.2 h2⟩
  | (Ev.fetchB _ _) :: rest, b, l2, h1, h2 => by
    simp only [guardedFrom, Bool.and_eq_true] at h1 ⊢
    exact ⟨h1.1, guardedFrom_append rest false l2 h1.2 h2⟩

theorem budgetRespecting_append : ∀ (t1 t2 : List Ev),
    budgetRespecting t1 = true → budgetRespecting t2 = true →
    (anyTrueCheck t1 = true → t2.all notFetch = true) →
    budgetRespecting (t1 ++ t2) = true
  | [], t2, _, h2, _ => h2
  | e :: t1, t2, h1, h2, h3 => by
    rw [List.cons_append]
    simp only [budgetRespecting, Bool.and_eq_true] at h1 ⊢
    have hany : anyTrueCheck t1 = true → t2.all notFetch = true := by
      intro ht
      apply h3
      simp only [anyTrueCheck] at ht ⊢
      rw [List.any_cons, ht, Bool.or_true]
    refine ⟨?_, budgetRespecting_append t1 t2 h1.2 h2 hany⟩
    by_cases he : isTrueCheck e
    · rw [if_pos he] at h1 ⊢
      rw [List.all_append, h1.1,
        h3 (by simp only [anyTrueCheck, List.any_cons, he, Bool.true_or])]
      rfl
    · rw [if_neg he]
  termination_by t1 _ => t1.length

theorem aLoop_cons (dparse : String → Option Int) (oot : Nat → Bool)
    (fetchB : String → String → List Trip) (via : String) (optA : TOption)
    (rest : List TOption) (best : List TOption) (ctr : Nat) :
    aLoop dparse oot fetchB via (optA :: rest) best ctr =
      if oot ctr then ⟨best, ctr + 1, [Ev.check ctr true]⟩
      else if oot (ctr + 1) then
        ⟨(aLoop dparse oot fetchB via rest best (ctr + 2)).best,
         (aLoop dparse oot fetchB via rest best (ctr + 2)).ctr,
         Ev.check ctr false :: Ev.check (ctr + 1) true ::
           (aLoop dparse oot fetchB via rest best (ctr + 2)).trace⟩
      else
        ⟨(aLoop dparse oot fetchB via rest
            (procB dparse optA (topB dparse (fetchB via optA.arrive)) best) (ctr + 2)).best,
         (aLoop dparse oot fetchB via rest
            (procB dparse optA (topB dparse (fetchB via optA.arrive)) best) (ctr + 2)).ctr,
         Ev.check ctr false :: Ev.check (ctr + 1) false :: Ev.fetchB via optA.arrive ::
           (aLoop dparse oot fetchB via rest
              (procB dparse optA (topB dparse (fetchB via optA.arrive)) best) (ctr + 2)).trace⟩ :=
  rfl

theorem viaLoop_cons (dparse : String → Option Int) (oot : Nat → Bool)
    (fetchA : String → List Trip) (fetchB : String → String → List Trip)
    (via : String) (rest : List String) (best : List TOption) (ctr : Nat) :
    viaLoop dparse oot fetchA fetchB (via :: rest) best ctr =
      if oot ctr then ⟨best, ctr + 1, [Ev.check ctr true]⟩
      else if oot (ctr + 1) then
        ⟨(viaLoop dparse oot fetchA fetchB rest best (ctr + 2)).best,
         (viaLoop dparse oot fetchA fetchB rest best (ctr + 2)).ctr,
         Ev.check ctr false :: Ev.check (ctr + 1) true ::
           (viaLoop dparse oot fetchA fetchB rest best (ctr + 2)).trace⟩
      else
        ⟨(viaLoop dparse oot fetchA fetchB rest
            (aLoop dparse oot fetchB via (topA dparse (fetchA via)) best (ctr + 2)).best
            (aLoop dparse oot fetchB via (topA dparse (fetchA via)) best (ctr + 2)).ctr).best,
         (viaLoop dparse oot fetchA fetchB rest
            (aLoop dparse oot fetchB via (topA dparse (fetchA via)) best (ctr + 2)).best
            (aLoop dparse oot fetchB via (topA dparse (fetchA via)) best (ctr + 2)).ctr).ctr,
         Ev.check ctr false :: Ev.check (ctr + 1) false :: Ev.fetchA via ::
           ((aLoop dparse oot fetchB via (topA dparse (fetchA via)) best (ctr + 2)).trace ++
            (viaLoop dparse oot fetchA fetchB rest
              (aLoop dparse oot fetchB via (topA dparse (fetchA via)) best (ctr + 2)).best
              (aLoop dparse oot fetchB via (topA dparse (fetchA via)) best (ctr + 2)).ctr).trace)⟩ :=
  rfl

theorem aLoop_stop (dparse : String → Option Int) (oot : Nat → Bool)
    (fetchB : String → String → List Trip) (via : String)
    (aOpts best : List TOption) (ctr : Nat) (h : oot ctr = true) :
    (aLoop dparse oot fetchB via aOpts best ctr).best = best ∧
    (aLoop dparse oot fetchB via aOpts best ctr).trace.all notFetch = true := by
  cases aOpts with
  | nil => exact ⟨rfl, rfl⟩
  | cons x rest =>
    rw [aLoop_cons, if_pos h]
    exact ⟨rfl, rfl⟩

theorem viaLoop_stop (dparse : String → Option Int) (oot : Nat → Bool)
    (fetchA : String → List Trip) (fetchB : String → String → List Trip)
    (vias : List String) (best : List TOption) (ctr : Nat) (h : oot ctr = true) :
    (viaLoop dparse oot fetchA fetchB vias best ctr).best = best ∧
    (viaLoop dparse oot fetchA fetchB vias best ctr).trace.all notFetch = true := by
  cases vias with
  | nil => exact ⟨rfl, rfl⟩
  | cons v rest =>
    rw [viaLoop_cons, if_pos h]
    exact ⟨rfl, rfl⟩

theorem aLoop_ctr_le (dparse : String → Option Int) (oot : Nat → Bool)
    (fetchB : String → String → List Trip) (via : String) :
    ∀ (aOpts best : List TOption) (ctr : Nat),
      ctr ≤ (aLoop dparse oot fetchB via aOpts best ctr).ctr
  | [], _, _ => le_refl _
  | optA :: rest, best, ctr => by
    rw [aLoop_cons]
    by_cases h1 : oot ctr
    · rw [if_pos h1]; exact Nat.le_succ _
    · rw [if_neg h1]
      by_cases h2 : oot (ctr + 1)
      · rw [if_pos h2]
        exact le_trans (by omega) (aLoop_ctr_le dparse oot fetchB via rest best (ctr + 2))
      · rw [if_neg h2]
        exact le_trans (by omega) (aLoop_ctr_le dparse oot fetchB via rest _ (ctr + 2))

theorem viaLoop_ctr_le (dparse : String → Option Int) (oot : Nat → Bool)
    (fetchA : String → List Trip) (fetchB : String → String → List Trip) :
    ∀ (vias : List String) (best : List TOption) (ctr : Nat),
      ctr ≤ (viaLoop dparse oot fetchA fetchB vias best ctr).ctr
  | [], _, _ => le_refl _
  | via :: rest, best, ctr => by
    rw [viaLoop_cons]
    by_cases h1 : oot ctr
    · rw [if_pos h1]; exact Nat.le_succ _
    · rw [if_neg h1]
      by_cases h2 : oot (ctr + 1)
      · rw [if_pos h2]
        exact le_trans (by omega) (viaLoop_ctr_le dparse oot fetchA fetchB rest best (ctr + 2))
      · rw [if_neg h2]
        refine le_trans ?_ (viaLoop_ctr_le dparse oot fetchA fetchB rest _ _)
        exact le_trans (by omega) (aLoop_ctr_le dparse oot fetchB via _ _ (ctr + 2))

theorem aLoop_anyTrue (dparse : String → Option Int) (oot : Nat → Bool)
    (fetchB : String → String → List Trip) (via : String)
    (hmono : ∀ m n, m ≤ n → oot m = true → oot n = true) :
    ∀ (aOpts best : List TOption) (ctr : Nat),
      anyTrueCheck (aLoop dparse oot fetchB via aOpts best ctr).trace = true →
      oot ((aLoop dparse oot fetchB via aOpts best ctr).ctr) = true
  | [], best, ctr => by
    intro h
    rw [show (aLoop dparse oot fetchB via ([] : List TOption) best ctr).trace = [] from rfl] at h
    exact absurd h (by simp [anyTrueCheck])
  | optA :: rest, best, ctr => by
    intro h
    rw [aLoop_cons] at h ⊢
    by_cases h1 : oot ctr
    · rw [if_pos h1] at h ⊢
      exact hmono ctr (ctr + 1) (Nat.le_succ _) h1
    · rw [if_neg h1] at h ⊢
      by_cases h2 : oot (ctr + 1)
      · rw [if_pos h2] at h ⊢
        exact hmono (ctr + 1) _
          (le_trans (by omega) (aLoop_ctr_le dparse oot fetchB via rest best (ctr + 2))) h2
      · rw [if_neg h2] at h ⊢
        simp only [anyTrueCheck, List.any_cons, isTrueCheck, Bool.false_or] at h
        exact aLoop_anyTrue dparse oot fetchB via hmono rest _ (ctr + 2) h

theorem viaLoop_anyTrue (dparse : String → Option Int) (oot : Nat → Bool)
    (fetchA : String → List Trip) (fetchB : String → String → List Trip)
    (hmono : ∀ m n, m ≤ n → oot m = true → oot n = true) :
    ∀ (vias : List String) (best : List TOption) (ctr : Nat),
      anyTrueCheck (viaLoop dparse oot fetchA fetchB vias best ctr).trace = true →
      oot ((viaLoop dparse oot fetchA fetchB vias best ctr).ctr) = true
  | [], best, ctr => by
    intro h
    rw [show (viaLoop dparse oot fetchA fetchB ([] : List String) best ctr).trace = []
      from rfl] at h
    exact absurd h (by simp [anyTrueCheck])
  | via :: rest, best, ctr => by
    intro h
    rw [viaLoop_cons] at h ⊢
    by_cases h1 : oot ctr
    · rw [if_pos h1] at h ⊢
      exact hmono ctr (ctr + 1) (Nat.le_succ _) h1
    · rw [if_neg h1] at h ⊢
      by_cases h2 : oot (ctr + 1)
      · rw [if_pos h2] at h ⊢
        exact hmono (ctr + 1) _
          (le_trans (by omega) (viaLoop_ctr_le dparse oot fetchA fetchB rest best (ctr + 2))) h2
      · rw [if_neg h2] at h ⊢
        simp only [anyTrueCheck, List.any_cons, isTrueCheck, Bool.false_or,
          List.any_append, Bool.or_eq_true] at h
        rcases h with ha | hv
        · have hoa : oot ((aLoop dparse oot fetchB via (topA dparse (fetchA via)) best
              (ctr + 2)).ctr) = true :=
            aLoop_anyTrue dparse oot fetchB via hmono _ best (ctr + 2)
              (by simpa [anyTrueCheck] using ha)
          exact hmono _ _ (viaLoop_ctr_le dparse oot fetchA fetchB rest _ _) hoa
        · exact viaLoop_anyTrue dparse oot fetchA fetchB hmono rest _ _
            (by simpa [anyTrueCheck] using hv)

theorem aLoop_bR (dparse : String → Option Int) (oot : Nat → Bool)
    (fetchB : String → String → List Trip) (via : String)
    (hmono : ∀ m n, m ≤ n → oot m = true → oot n = true) :
    ∀ (aOpts best : List TOption) (ctr : Nat),
      budgetRespecting (aLoop dparse oot fetchB via aOpts best ctr).trace = true
  | [], _, _ => rfl
  | optA :: rest, best, ctr => by
    rw [aLoop_cons]
    by_cases h1 : oot ctr
    · rw [if_pos h1]
      rfl
    · rw [if_neg h1]
      by_cases h2 : oot (ctr + 1)
      · rw [if_pos h2]
        have hstop := (aLoop_stop dparse oot fetchB via
          rest best (ctr + 2) (hmono _ _ (by omega) h2)).2
        have hrec := aLoop_bR dparse oot fetchB via hmono rest best (ctr + 2)
        simp [budgetRespecting, isTrueCheck, hstop, hrec]
      · rw [if_neg h2]
        have hrec := aLoop_bR dparse oot fetchB via hmono rest
          (procB dparse optA (topB dparse (fetchB via optA.arrive)) best) (ctr + 2)
        simp [budgetRespecting, isTrueCheck, hrec]

theorem viaLoop_bR (dparse : String → Option Int) (oot : Nat → Bool)
    (fetchA : String → List Trip) (fetchB : String → String → List Trip)
    (hmono : ∀ m n, m ≤ n → oot m = true → oot n = true) :
    ∀ (vias : List String) (best : List TOption) (ctr : Nat),
      budgetRespecting (viaLoop dparse oot fetchA fetchB vias best ctr).trace = true
  | [], _, _ => rfl
  | via :: rest, best, ctr => by
    rw [viaLoop_cons]
    by_cases h1 : oot ctr
    · rw [if_pos h1]
      rfl
    · rw [if_neg h1]
      by_cases h2 : oot (ctr + 1)
      · rw [if_pos h2]
        have hstop := (viaLoop_stop dparse oot fetchA fetchB
          rest best (ctr + 2) (hmono _ _ (by omega) h2)).2
        have hrec := viaLoop_bR dparse oot fetchA fetchB hmono rest best (ctr + 2)
        simp [budgetRespecting, isTrueCheck, hstop, hrec]
      · rw [if_neg h2]
        have hbra := aLoop_bR dparse oot fetchB via hmono
          (topA dparse (fetchA via)) best (ctr + 2)
        have hbrv := viaLoop_bR dparse oot fetchA fetchB hmono rest
          (aLoop dparse oot fetchB via (topA dparse (fetchA via)) best (ctr + 2)).best
          (aLoop dparse oot fetchB via (topA dparse (fetchA via)) best (ctr + 2)).ctr
        have happ : budgetRespecting
            ((aLoop dparse oot fetchB via (topA dparse (fetchA via)) best (ctr + 2)).trace ++
             (viaLoop dparse oot fetchA fetchB rest
               (aLoop dparse oot fetchB via (topA dparse (fetchA via)) best (ctr + 2)).best
               (aLoop dparse oot fetchB via (topA dparse (fetchA via)) best
                 (ctr + 2)).ctr).trace) = true := by
          refine budgetRespecting_append _ _ hbra hbrv ?_
          intro ht
          have hoa := aLoop_anyTrue dparse oot fetchB via hmono
            (topA dparse (fetchA via)) best (ctr + 2) ht
          exact (viaLoop_stop dparse oot fetchA fetchB rest _ _ hoa).2
        simp [budgetRespecting, isTrueCheck, happ]

theorem aLoop_gf (dparse : String → Option Int) (oot : Nat → Bool)
    (fetchB : String → String → List Trip) (via : String) :
    ∀ (aOpts best : List TOption) (ctr : Nat),
      guardedFrom false (aLoop dparse oot fetchB via aOpts best ctr).trace = true
  | [], _, _ => rfl
  | optA :: rest, best, ctr => by
    rw [aLoop_cons]
    by_cases h1 : oot ctr
    · rw [if_pos h1]
      rfl
    · rw [if_neg h1]
      by_cases h2 : oot (ctr + 1)
      · rw [if_pos h2]
        exact aLoop_gf dparse oot fetchB via rest best (ctr + 2)
      · rw [if_neg h2]
        exact aLoop_gf dparse oot fetchB via rest _ (ctr + 2)

theorem viaLoop_gf (dparse : String → Option Int) (oot : Nat → Bool)
    (fetchA : String → List Trip) (fetchB : String → String → List Trip) :
    ∀ (vias : List String) (best : List TOption) (ctr : Nat),
      guardedFrom false (viaLoop dparse oot fetchA fetchB vias best ctr).trace = true
  | [], _, _ => rfl
  | via :: rest, best, ctr => by
    rw [viaLoop_cons]
    by_cases h1 : oot ctr
    · rw [if_pos h1]
      rfl
    · rw [if_neg h1]
      by_cases h2 : oot (ctr + 1)
      · rw [if_pos h2]
        exact viaLoop_gf dparse oot fetchA fetchB rest best (ctr + 2)
      · rw [if_neg h2]
        exact guardedFrom_append _ false _
          (aLoop_gf dparse oot fetchB via (topA dparse (fetchA via)) best (ctr + 2))
          (viaLoop_gf dparse oot fetchA fetchB rest _ _)

/-- Expected normalisation of `tripNegGap`. -/
def optNegGap : TOption :=
  ⟨Mode.trip, 12, "T0", "T12", some (-5),
    [⟨some "X", some "Y", some "T0", some "T6", none, none, 0, "Trein"⟩,
     ⟨some "Y", some "Z", some "TNEG", some "T12", none, none, 0, "Trein"⟩]⟩

/-- The +45 row of `deps45and90` as selected by `renderOvPanel`. -/
def row45 : OvRow := ⟨⟨some "M45", none, none, none, none⟩, "M45", 45⟩

/-- A direct option with a null `minTransferMin` (one leg, no transfer). -/
def optNull : TOption := ⟨Mode.trip, 30, "T0", "T6", none, []⟩

/-- A combination option with `minTransferMin = 5`. -/
def optWithTransfer : TOption := ⟨Mode.combo, 20, "T0", "TB6", some 5, []⟩

/- =========================
   Claims
   ========================= -/

/-- C1 counterexample: on the early-return path (base query already yields
`TARGET` options) no deduplication happens, so an upstream response with
ten identical trips produces a response whose signatures are not
pairwise distinct. -/
theorem extremeB_early_dup_signature :
    ¬ ((extremeBResponse cparse (fun _ => false) (fun _ => none) (fun _ => [])
      (fun _ _ => []) (List.replicate 10 tripXY)).map optionSignature).Nodup := by
  decide

/-- C1 (amended): on the merge path — base query yields fewer than `TARGET`
options and the budget check before via-resolution passes — no two options
of the `/reis-extreme-b` response share an `OptionSignature`; the
early-return paths return the base options without deduplication. -/
theorem extremeB_merge_response_nodup (dparse : String → Option Int) (oot : Nat → Bool)
    (resolveC : String → Option String) (fetchA : String → List Trip)
    (fetchB : String → String → List Trip) (baseTrips : List Trip)
    (h1 : (baseOptionsOf dparse baseTrips).length < TARGET) (h2 : oot 0 = false) :
    ((extremeBResponse dparse oot resolveC fetchA fetchB baseTrips).map
      optionSignature).Nodup := by
  rw [extremeBResponse_merge_eq h1 h2]
  exact nodup_sig_sort_take _ (dedupAux_sig_nodup _ []).1 _

/-- Witness for the merge-path deduplication theorem at a concrete input. -/
theorem extremeB_merge_response_nodup_witness :
    ((extremeBResponse cparse (fun _ => false) (fun _ => none) (fun _ => [])
      (fun _ _ => []) []).map optionSignature).Nodup :=
  extremeB_merge_response_nodup cparse (fun _ => false) (fun _ => none) (fun _ => [])
    (fun _ _ => []) [] (by decide) rfl

/-- C2 counterexample: a raw trip whose arrival timestamp parses 6 000 000
milliseconds before its departure normalises to an option with
`durationMin = -100 < 0`, so `durationMin` is not always non-negative. -/
theorem tripToOption_negative_duration :
    (tripToOption cparse tripNegDur).map TOption.durationMin = some (-100) ∧
    (-100 : Int) < 0 := by
  decide

/-- C2 (amended): every option produced by `tripToOption` or
`combineOptions` satisfies `durationMin = round((Date.parse(arrive) −
Date.parse(depart))/60000)`; this value is non-negative whenever the
arrival parses at or after the departure (the code never checks this, so a
backwards upstream record yields a negative duration). -/
theorem option_durationMin_eq (dparse : String → Option Int) :
    (∀ t o, tripToOption dparse t = some o →
      ∃ dT aT, dparse o.depart = some dT ∧ dparse o.arrive = some aT ∧
        o.durationMin = round60000 (aT - dT) ∧ (dT ≤ aT → 0 ≤ o.durationMin)) ∧
    (∀ a b o, combineOptions dparse a b = some o →
      ∃ dT aT, dparse o.depart = some dT ∧ dparse o.arrive = some aT ∧
        o.durationMin = round60000 (aT - dT) ∧ (dT ≤ aT → 0 ≤ o.durationMin)) := by
  constructor
  · intro t o h
    obtain ⟨dT, aT, h1, h2, h3, _, _, _⟩ := tripToOption_spec h
    refine ⟨dT, aT, h1, h2, h3, fun hle => ?_⟩
    rw [h3]
    exact round60000_nonneg (by omega)
  · intro a b o h
    obtain ⟨dT, aT, h1, h2, h3, _, _, _, _⟩ := combineOptions_spec h
    refine ⟨dT, aT, h1, h2, h3, fun hle => ?_⟩
    rw [h3]
    exact round60000_nonneg (by omega)

/-- Witness for the duration equation at a concrete trip. -/
theorem option_durationMin_eq_witness :
    ∃ dT aT, cparse optXY.depart = some dT ∧ cparse optXY.arrive = some aT ∧
      optXY.durationMin = round60000 (aT - dT) ∧ (dT ≤ aT → 0 ≤ optXY.durationMin) :=
  (option_durationMin_eq cparse).1 tripXY optXY (by decide)

/-- Witness for the (A, B) transfer gate at a concrete pair: A arrives at
60 000 ms, B departs at 360 000 ms, a 5-minute gap inside [0, 20]. -/
theorem viaPair_transfer_gate_witness :
    ∃ aA bD, cparse optXY.arrive = some aA ∧ cparse optYZ.depart = some bD ∧
      (pairCombine cparse optXY optYZ = none ↔
        (round60000 (bD - aA) < 0 ∨ MAX_TRANSFER < round60000 (bD - aA))) ∧
      ∀ c, pairCombine cparse optXY optYZ = some c →
        c.legs = optXY.legs ++ optYZ.legs ∧ c.mode = Mode.combo :=
  @viaPair_transfer_gate cparse tripXY tripYZ optXY optYZ (by decide) (by decide)

/-- C4: budget discipline of the via exploration. Every upstream fetch in
the event trace is immediately preceded by a budget check that read
`false` (the budget is checked before each new via-branch and before each
B-leg fetch, never mid-flight); with a monotone clock, once any check
reads `true` no fetch ever follows; when the budget is exceeded at a
via-branch boundary the loop returns the already-collected combinations
unchanged and issues no fetch; and the merge-path response is exactly the
dedup-sort-truncate merge of the base options with whatever the loop
collected (a budget overrun is never an error). -/
theorem searchBudget_discipline (dparse : String → Option Int) (oot : Nat → Bool)
    (fetchA : String → List Trip) (fetchB : String → String → List Trip)
    (vias : List String) (best : List TOption) (ctr : Nat)
    (hmono : ∀ m n, m ≤ n → oot m = true → oot n = true) :
    guardedFrom false (viaLoop dparse oot fetchA fetchB vias best ctr).trace = true ∧
    budgetRespecting (viaLoop dparse oot fetchA fetchB vias best ctr).trace = true ∧
    (oot ctr = true → (viaLoop dparse oot fetchA fetchB vias best ctr).best = best ∧
      (viaLoop dparse oot fetchA fetchB vias best ctr).trace.all notFetch = true) ∧
    ∀ resolveC baseTrips, (baseOptionsOf dparse baseTrips).length < TARGET →
      oot 0 = false →
      extremeBResponse dparse oot resolveC fetchA fetchB baseTrips =
        (sortByScore (dedupBySig (baseOptionsOf dparse baseTrips ++
          (viaLoop dparse oot fetchA fetchB (viaCodesOf resolveC baseTrips) [] 1).best))).take
          TARGET :=
  ⟨viaLoop_gf dparse oot fetchA fetchB vias best ctr,
   viaLoop_bR dparse oot fetchA fetchB hmono vias best ctr,
   fun h => viaLoop_stop dparse oot fetchA fetchB vias best ctr h,
   fun _ _ h1 h2 => extremeBResponse_merge_eq h1 h2⟩

/-- Witness for the budget discipline at a concrete instance whose clock is
already expired: the loop collects nothing and its trace respects the
budget. -/
theorem searchBudget_discipline_witness :
    (viaLoop cparse (fun _ => true) (fun _ => []) (fun _ _ => []) ["v"] [] 0).best = [] ∧
    budgetRespecting
      (viaLoop cparse (fun _ => true) (fun _ => []) (fun _ _ => []) ["v"] [] 0).trace = true :=
  ⟨((searchBudget_discipline cparse (fun _ => true) (fun _ => []) (fun _ _ => [])
      ["v"] [] 0 (fun _ _ _ h => h)).2.2.1 rfl).1,
   (searchBudget_discipline cparse (fun _ => true) (fun _ => []) (fun _ _ => [])
      ["v"] [] 0 (fun _ _ _ h => h)).2.1⟩

/-- C5: for N ≥ 1 callers arriving at `fetchStationsCached` with the same
un-cached key before the upstream call settles, exactly one upstream call
is issued, the in-flight marker is removed exactly once at settlement
(success or failure alike), the marker is gone afterwards, and every
caller receives the settlement outcome. -/
theorem stationResolver_coalescing {P : Type} (cs : List Nat) (o : Outcome P)
    (hne : cs ≠ []) :
    (coRun coInit (cs.map CoEv.arrive ++ [CoEv.settle o])).upstream = 1 ∧
    (coRun coInit (cs.map CoEv.arrive ++ [CoEv.settle o])).deletes = 1 ∧
    (coRun coInit (cs.map CoEv.arrive ++ [CoEv.settle o])).inflight = false ∧
    ∀ c ∈ cs, (c, o) ∈ (coRun coInit (cs.map CoEv.arrive ++ [CoEv.settle o])).delivered := by
  obtain ⟨c, rest, rfl⟩ := List.exists_cons_of_ne_nil hne
  have hrun : coRun (P := P) coInit ((c :: rest).map CoEv.arrive) =
      ⟨none, true, 1, c :: rest, [], 0⟩ := by
    simp only [List.map_cons, coRun, List.foldl_cons]
    have hstep : coStep (P := P) coInit (CoEv.arrive c) = ⟨none, true, 1, [c], [], 0⟩ := rfl
    rw [hstep]
    have hrest := coRun_arrive_pending (P := P) rest [c]
    simp only [coRun] at hrest
    rw [hrest]
    simp
  have hsplit : coRun (P := P) coInit ((c :: rest).map CoEv.arrive ++ [CoEv.settle o]) =
      coStep (coRun coInit ((c :: rest).map CoEv.arrive)) (CoEv.settle o) := by
    simp [coRun, List.foldl_append]
  rw [hsplit, hrun]
  cases o with
  | ok p => exact ⟨rfl, rfl, rfl, fun x hx => List.mem_map_of_mem _ hx⟩
  | err => exact ⟨rfl, rfl, rfl, fun x hx => List.mem_map_of_mem _ hx⟩

/-- Witness for the coalescing theorem: three concurrent callers, one
successful upstream call, one marker removal, all three served. -/
theorem stationResolver_coalescing_witness :
    (coRun coInit ([0, 1, 2].map CoEv.arrive ++ [CoEv.settle (Outcome.ok 7)])).upstream = 1 ∧
    (coRun coInit ([0, 1, 2].map CoEv.arrive ++ [CoEv.settle (Outcome.ok 7)])).deletes = 1 ∧
    (1, Outcome.ok 7) ∈
      (coRun coInit ([0, 1, 2].map CoEv.arrive ++ [CoEv.settle (Outcome.ok 7)])).delivered := by
  have h := stationResolver_coalescing (P := Nat) [0, 1, 2] (Outcome.ok 7) (by decide)
  exact ⟨h.1, h.2.1, h.2.2.2 1 (by decide)⟩

/-- C6 counterexample: a one-character query on a cold cache does issue an
upstream station call — `fetchStationsCached` only short-circuits on a key
that is empty after trimming, not on queries shorter than 2 characters. -/
theorem stationResolver_oneChar_upstream :
    resolveDecision (P := Nat) (fun _ => none) (fun _ => false) "a" =
      ResolveStep.upstreamCall := by
  decide

/-- C6 (amended): only queries that are empty after trimming short-circuit
to an empty result without an upstream call; a 1-character query behaves
like any other query (cache hit, join in-flight, or upstream call). -/
theorem stationResolver_emptyQuery_shortcircuit {P : Type} (cache : String → Option P)
    (infl : String → Bool) (q : String) (h : jsTrim q = "") :
    resolveDecision cache infl q = ResolveStep.empty := by
  unfold resolveDecision
  rw [h]
  rfl

/-- Witness for the empty-query short-circuit at a whitespace query. -/
theorem stationResolver_emptyQuery_shortcircuit_witness :
    resolveDecision (P := Nat) (fun _ => none) (fun _ => false) " " = ResolveStep.empty :=
  stationResolver_emptyQuery_shortcircuit (fun _ => none) (fun _ => false) " " (by decide)

/-- C7 counterexample: with departures at +45 and +90 minutes after the
train arrival, the rendered rows are both entries (the fallback pool is
30–120 minutes, capped at 8 rows), not only the +45 entry of a 60-minute
window. -/
theorem ovSelector_window60_missing :
    (ovShown cparse deps45and90 "T0").map OvRow.transferMin = [45, 90] := by
  decide

/-- Witness for the fallback-window equation at the {+45, +90} board. -/
theorem ovSelector_fallback_window_witness :
    ovShown cparse deps45and90 "T0" = (ovAfter cparse deps45and90 "T0").take 8 :=
  ovSelector_fallback_window (by decide)

/-- C8: no row with a negative transfer gap is ever rendered by
`renderOvPanel`, in the primary window and in the fallback alike. -/
theorem ovSelector_no_negative_rows (sparse : String → Option Int) (deps : List DepRec)
    (arr : String) (r : OvRow) (h : r ∈ ovShown sparse deps arr) :
    0 ≤ r.transferMin :=
  ovItems_nonneg (ovShown_mem_items h)

/-- Witness for the non-negative-row theorem at the +45 row. -/
theorem ovSelector_no_negative_rows_witness : 0 ≤ row45.transferMin :=
  ovSelector_no_negative_rows cparse deps45and90 "T0" row45 (by decide)

/-- C9 counterexample: `tripToOption` does not filter negative
consecutive-leg gaps — a trip whose second leg departs 5 minutes before
the first leg arrives normalises to `minTransferMin = -5`. -/
theorem tripToOption_negative_gap :
    (tripToOption cparse tripNegGap).map TOption.minTransferMin = some (some (-5)) ∧
    (-5 : Int) < 0 := by
  decide

/-- C9 (amended): `minTransferMin` of a normalised trip is the minimum over
all parseable consecutive-leg gaps — negative gaps included, nothing is
filtered — and is null when the trip has fewer than two legs. -/
theorem tripToOption_minTransfer_minimum (dparse : String → Option Int) (t : Trip)
    (o : TOption) (h : tripToOption dparse t = some o) :
    o.minTransferMin = minFold (gapsOf dparse t.legs) ∧
    (t.legs.length < 2 → o.minTransferMin = none) ∧
    ∀ m, o.minTransferMin = some m →
      m ∈ gapsOf dparse t.legs ∧ ∀ g ∈ gapsOf dparse t.legs, m ≤ g := by
  obtain ⟨_, _, _, _, _, hmin, _, _⟩ := tripToOption_spec h
  refine ⟨hmin, fun hlen => ?_, fun m hm => ?_⟩
  · rw [hmin, gapsOf_short hlen]
    rfl
  · rw [hmin] at hm
    exact minFold_spec hm

/-- Witness for the minimum-gap theorem at the negative-gap trip. -/
theorem tripToOption_minTransfer_minimum_witness :
    optNegGap.minTransferMin = minFold (gapsOf cparse tripNegGap.legs) ∧
    (-5 : Int) ∈ gapsOf cparse tripNegGap.legs := by
  have h := tripToOption_minTransfer_minimum cparse tripNegGap optNegGap (by decide)
  exact ⟨h.1, (h.2.2 (-5) (by decide)).1⟩

/-- C10 counterexample: an option with a null `minTransferMin` is scored
with the default 999, yielding `durationMin + 1978` instead of the
claimed `durationMin + 0`. -/
theorem scoreOption_null_default :
    scoreOption optNull = 2008 ∧ optNull.durationMin = 30 ∧ (2008 : Int) ≠ 30 := by
  decide

/-- C10 (amended): `scoreOption o = durationMin + penalty` with `penalty =
2 × (minT − 10)` when `minT > 10` and 0 otherwise, where `minT` is
`minTransferMin` when non-null and 999 when null; the response list is
always truncated to `TARGET` and is sorted ascending by score on the
early-return and merge paths (the budget bail-out path returns the base
options unsorted). -/
theorem scoreOption_ranking :
    (∀ (o : TOption) (m : Int), o.minTransferMin = some m →
      scoreOption o = o.durationMin + (if 10 < m then (m - 10) * 2 else 0)) ∧
    (∀ o : TOption, o.minTransferMin = none →
      scoreOption o = o.durationMin + (999 - 10) * 2) ∧
    ∀ (dparse : String → Option Int) (oot : Nat → Bool)
      (resolveC : String → Option String) (fetchA : String → List Trip)
      (fetchB : String → String → List Trip) (baseTrips : List Trip),
      (extremeBResponse dparse oot resolveC fetchA fetchB baseTrips).length ≤ TARGET ∧
      ((TARGET ≤ (baseOptionsOf dparse baseTrips).length ∨ oot 0 = false) →
        List.Pairwise (fun a b => scoreOption a ≤ scoreOption b)
          (extremeBResponse dparse oot resolveC fetchA fetchB baseTrips)) := by
  refine ⟨?_, ?_, ?_⟩
  · intro o m hm
    simp only [scoreOption, hm, Option.getD_some]
  · intro o hm
    simp only [scoreOption, hm, Option.getD_none]
    norm_num
  · intro dparse oot resolveC fetchA fetchB baseTrips
    constructor
    · by_cases hlen : TARGET ≤ (baseOptionsOf dparse baseTrips).length
      · rw [extremeBResponse_early_eq hlen]
        exact List.length_take_le _ _
      · by_cases hoot : oot 0 = true
        · rw [extremeBResponse_budget_eq (not_le.mp hlen) hoot]
          exact List.length_take_le _ _
        · rw [extremeBResponse_merge_eq (not_le.mp hlen) (Bool.not_eq_true _ ▸ hoot)]
          exact List.length_take_le _ _
    · intro hpath
      by_cases hlen : TARGET ≤ (baseOptionsOf dparse baseTrips).length
      · rw [extremeBResponse_early_eq hlen]
        exact List.Pairwise.sublist (List.take_sublist _ _) (sortByScore_sorted _)
      · have hoot : oot 0 = false := by
          rcases hpath with hp | hp
          · exact absurd hp hlen
          · exact hp
        rw [extremeBResponse_merge_eq (not_le.mp hlen) hoot]
        exact List.Pairwise.sublist (List.take_sublist _ _) (sortByScore_sorted _)

/-- Witness for the score formula and ranking at concrete inputs. -/
theorem scoreOption_ranking_witness :
    scoreOption optWithTransfer =
      optWithTransfer.durationMin + (if 10 < (5 : Int) then ((5 : Int) - 10) * 2 else 0) ∧
    List.Pairwise (fun a b => scoreOption a ≤ scoreOption b)
      (extremeBResponse cparse (fun _ => false) (fun _ => none) (fun _ => [])
        (fun _ _ => []) []) :=
  ⟨scoreOption_ranking.1 optWithTransfer 5 rfl,
   (scoreOption_ranking.2.2 cparse (fun _ => false) (fun _ => none) (fun _ => [])
     (fun _ _ => []) []).2 (Or.inr rfl)⟩

end Planner
